import Mathlib

/-!
Verification of the deterministic core of the Risk_api_server repository:
the keyword-based industry classifier (`src/app/classifier.py`,
`src/app/constants.py`), the OSD risk engine and cost-analysis engine
(`src/app/risk_engine.py`), and the report-assembly slice of
`src/app/service.py`.  Python floats are embedded as exact rationals (ℚ);
Python ints as ℤ; fallible Python code (operations that raise) as `Except`.
-/

namespace RiskApi

/-! ## Python primitive helpers -/

/-- Floor of a rational, as executed on exact rationals (`Int.fdiv` floors for positive
denominators). -/
def ratFloor (x : ℚ) : ℤ := x.num.fdiv (x.den : ℤ)

/-- Python built-in `round(x)`: nearest integer, ties to even. -/
def pyRound (x : ℚ) : ℤ :=
  if x - (ratFloor x : ℚ) < 1/2 then ratFloor x
  else if 1/2 < x - (ratFloor x : ℚ) then ratFloor x + 1
  else if ratFloor x % 2 = 0 then ratFloor x
  else ratFloor x + 1

/-- Python `round(x, 2)`: round to two decimal places. -/
def pyRound2 (x : ℚ) : ℚ := (pyRound (x * 100) : ℚ) / 100

/-- Python `int(x)`: truncation toward zero (`Int.tdiv` truncates and
`x.den > 0`). -/
def pyInt (x : ℚ) : ℤ := x.num.tdiv (x.den : ℤ)

/-- Python `str.lower()`, character-wise (all characters appearing in this
repository are ASCII letters or Korean, on which per-char lowering agrees
with Python). -/
def pyLower (s : String) : List Char := s.data.map Char.toLower

/-- Helper for Python's substring test: does `hay` start with `needle`? -/
def startsWith : List Char → List Char → Bool
  | [], _ => true
  | _ :: _, [] => false
  | a :: as, b :: bs => a = b && startsWith as bs

/-- Python `needle in hay` for strings: substring containment. -/
def strIn (needle : List Char) : List Char → Bool
  | [] => startsWith needle []
  | c :: rest => startsWith needle (c :: rest) || strIn needle rest

/-- One insertion step of a stable descending sort by `key`
(model of Python `sorted(l, key=key, reverse=True)`). -/
def insertDesc {α : Type} (key : α → ℤ) (x : α) : List α → List α
  | [] => [x]
  | y :: ys => if key y ≤ key x then x :: y :: ys else y :: insertDesc key x ys

/-- Stable descending sort by `key`, model of Python
`sorted(l, key=key, reverse=True)`. -/
def sortDesc {α : Type} (key : α → ℤ) (l : List α) : List α :=
  l.foldr (insertDesc key) []

/-! ## Data model (src/app/models.py) -/

/-- The `IndustryCategory` enum, models.py lines 6–15. -/
inductive IndustryCategory where
  | EDUCATION
  | IT_STARTUP
  | MANUFACTURING
  | MARKETING
  | FINANCE
  | SERVICE
  | PROJECT_MANAGEMENT
  | GENERAL_BUSINESS
deriving DecidableEq, Fintype, Repr

/-- The `AnalysisMethod` enum, models.py lines 18–54. -/
inductive AnalysisMethod where
  | LOGIC_MODEL
  | SMART_GOAL
  | LEAN_CANVAS
  | SWOT
  | FIVE_WHY
  | FMEA
  | FTA
  | HAZOP
  | STP
  | FOUR_P
  | PORTER_FIVE_FORCES
  | VAR
  | MONTE_CARLO
  | SENSITIVITY_ANALYSIS
  | SERVICE_BLUEPRINT
  | SIPOC
  | RAID_LOG
  | PERT_CPM
  | RBS
  | CJM
deriving DecidableEq, Fintype, Repr

/-- Structure `IndustryCategoryInfo`, models.py lines 64–68. -/
structure IndustryCategoryInfo where
  category_id : IndustryCategory
  category_name : String
  confidence_score : ℚ
deriving DecidableEq, Repr

/-- Structure `OSDScore`, models.py lines 114–120. -/
structure OSDScore where
  occurrence : ℤ
  severity : ℤ
  detection : ℤ
  risk_score : ℤ
  description : String
deriving DecidableEq, Repr

/-! ## Constants (src/app/constants.py) -/

/-- The `INDUSTRY_METHODS` dict, constants.py lines 6–49. -/
def INDUSTRY_METHODS : IndustryCategory → List AnalysisMethod
  | .EDUCATION => [.LOGIC_MODEL, .SMART_GOAL, .CJM]
  | .IT_STARTUP => [.LEAN_CANVAS, .SWOT, .CJM, .FIVE_WHY]
  | .MANUFACTURING => [.FMEA, .FTA, .HAZOP]
  | .MARKETING => [.STP, .FOUR_P, .PORTER_FIVE_FORCES, .SWOT]
  | .FINANCE => [.VAR, .MONTE_CARLO, .SENSITIVITY_ANALYSIS]
  | .SERVICE => [.SERVICE_BLUEPRINT, .SIPOC, .CJM]
  | .PROJECT_MANAGEMENT => [.RAID_LOG, .PERT_CPM, .RBS]
  | .GENERAL_BUSINESS => [.SWOT, .LEAN_CANVAS, .CJM]

/-- The `INDUSTRY_NAMES` dict, constants.py lines 53–62. -/
def INDUSTRY_NAMES : IndustryCategory → String
  | .EDUCATION => "교육 / 학습 / 에듀테크"
  | .IT_STARTUP => "IT / 앱 / 소프트웨어 / 스타트업"
  | .MANUFACTURING => "제조 / 공장 / 설비 / 하드웨어"
  | .MARKETING => "마케팅 / 광고 / 브랜딩 / 소비재"
  | .FINANCE => "금융 / 투자 / 재무"
  | .SERVICE => "서비스업 / 외식 / 프랜차이즈 / 숙박"
  | .PROJECT_MANAGEMENT => "프로젝트 / 건설 / 공공사업 / 인프라"
  | .GENERAL_BUSINESS => "기타 / 범용 비즈니스 / 아직 모르겠음"

/-- The `INDUSTRY_KEYWORDS` dict, constants.py lines 66–95; the
general-business category has no entry, modelled with the empty list. -/
def INDUSTRY_KEYWORDS : IndustryCategory → List String
  | .EDUCATION =>
    ["교육", "학습", "에듀테크", "강의", "온라인 강좌", "학원", "교육 콘텐츠",
     "이러닝", "학생", "교사", "교육 플랫폼", "교육용", "학습 관리"]
  | .IT_STARTUP =>
    ["앱", "애플리케이션", "소프트웨어", "플랫폼", "SaaS", "모바일", "웹",
     "스타트업", "IT", "기술", "개발", "서비스 개발", "디지털", "온라인 서비스"]
  | .MANUFACTURING =>
    ["제조", "생산", "공장", "설비", "하드웨어", "제품 생산", "생산라인",
     "제조업", "공정", "조립", "기계", "제작", "양산"]
  | .MARKETING =>
    ["마케팅", "광고", "브랜드", "브랜딩", "홍보", "프로모션", "캠페인",
     "소비재", "B2C", "고객 유치", "브랜드 인지도", "마케팅 전략"]
  | .FINANCE =>
    ["금융", "투자", "재무", "펀드", "자산 운용", "주식", "채권", "대출",
     "핀테크", "금융 상품", "포트폴리오", "리스크 관리", "자산 관리"]
  | .SERVICE =>
    ["서비스", "외식", "음식점", "레스토랑", "카페", "프랜차이즈", "숙박",
     "호텔", "게스트하우스", "고객 서비스", "오프라인 매장", "점포"]
  | .PROJECT_MANAGEMENT =>
    ["프로젝트", "건설", "공공사업", "인프라", "시공", "공사", "토목",
     "대형 프로젝트", "건축", "사회기반시설", "정부 발주", "공공 입찰"]
  | .GENERAL_BUSINESS => []

/-- Iteration order of the `INDUSTRY_KEYWORDS` dict (Python dicts iterate in
insertion order); general business has no keyword entry. -/
def keyword_categories : List IndustryCategory :=
  [.EDUCATION, .IT_STARTUP, .MANUFACTURING, .MARKETING, .FINANCE, .SERVICE,
   .PROJECT_MANAGEMENT]

/-! ## Classifier (src/app/classifier.py) -/

/-- Number of keywords of category `c` occurring as substrings of the
lower-cased description (the `score` accumulated in
`classify_business`, classifier.py lines 24–31). -/
def matchCount (business_description : String) (c : IndustryCategory) : ℕ :=
  (INDUSTRY_KEYWORDS c).countP
    (fun k => strIn (pyLower k) (pyLower business_description))

/-- The `scores` dict built by `classify_business` (classifier.py lines
21–39), as an association list in dict insertion order: categories with a
positive match score, paired with `min(score*15, 95)`. -/
def classifyScores (business_description : String) :
    List (IndustryCategory × ℕ) :=
  keyword_categories.filterMap (fun c =>
    if 0 < matchCount business_description c then
      some (c, min (matchCount business_description c * 15) 95)
    else none)

/-- Function `IndustryClassifier.classify_business`, classifier.py lines 10–63. -/
def classify_business (business_description : String) :
    List IndustryCategoryInfo :=
  let scores := classifyScores business_description
  let scores :=
    if scores = [] then [(IndustryCategory.GENERAL_BUSINESS, 50)] else scores
  ((sortDesc (fun p => (p.2 : ℤ)) scores).take 2).map
    (fun p =>
      { category_id := p.1
        category_name := INDUSTRY_NAMES p.1
        confidence_score := (p.2 : ℚ) })

/-- The `for method in ...: if method not in selected: selected.append(...);
if len(selected) == 2: break` loops of `select_analysis_methods`
(classifier.py lines 102–121). -/
def fillTo2 : List AnalysisMethod → List AnalysisMethod → List AnalysisMethod
  | selected, [] => selected
  | selected, m :: rest =>
    if m ∈ selected then fillTo2 selected rest
    else if (selected ++ [m]).length = 2 then selected ++ [m]
    else fillTo2 (selected ++ [m]) rest

/-- Function `IndustryClassifier.select_analysis_methods`, classifier.py lines
65–124. -/
def select_analysis_methods (categories : List IndustryCategoryInfo) :
    List AnalysisMethod :=
  match categories with
  | [] => [.SWOT, .LEAN_CANVAS]
  | first :: rest =>
    let first_category_methods := INDUSTRY_METHODS first.category_id
    let selected : List AnalysisMethod :=
      match first_category_methods with
      | [] => []
      | m :: _ => [m]
    let selected : List AnalysisMethod :=
      match rest with
      | second :: _ =>
        match (INDUSTRY_METHODS second.category_id).find?
            (fun m => decide (m ∉ selected)) with
        | some m => selected ++ [m]
        | none => selected
      | [] =>
        match first_category_methods with
        | _ :: m2 :: _ => selected ++ [m2]
        | _ => selected
    let selected : List AnalysisMethod :=
      if selected.length < 2 ∧ first_category_methods ≠ [] then
        fillTo2 selected first_category_methods
      else selected
    let selected : List AnalysisMethod :=
      if selected.length < 2 then fillTo2 selected [.SWOT, .LEAN_CANVAS, .CJM]
      else selected
    if 2 ≤ selected.length then selected.take 2
    else selected ++ ([AnalysisMethod.SWOT, AnalysisMethod.LEAN_CANVAS].take
      (2 - selected.length))

/-- Specialization of `select_analysis_methods` applied to a single category with the given
id (its other fields are never read by the function). -/
def selectOne (i : IndustryCategory) : List AnalysisMethod :=
  select_analysis_methods [⟨i, "", 0⟩]

/-- Specialization of `select_analysis_methods` applied to two categories with the given ids
(the other fields and any further categories are never read). -/
def selectPair (i j : IndustryCategory) : List AnalysisMethod :=
  select_analysis_methods [⟨i, "", 0⟩, ⟨j, "", 0⟩]

/-! ## OSD risk engine (src/app/risk_engine.py) -/

/-- Table `OSDRiskEngine.INDUSTRY_CORRECTION`, risk_engine.py lines 12–21, as
(O, S, D) factor triples. -/
def INDUSTRY_CORRECTION : IndustryCategory → ℚ × ℚ × ℚ
  | .IT_STARTUP => (1.2, 1.1, 0.9)
  | .EDUCATION => (0.9, 1.0, 1.1)
  | .MANUFACTURING => (1.0, 1.3, 1.0)
  | .MARKETING => (1.1, 0.9, 1.0)
  | .FINANCE => (0.8, 1.5, 1.2)
  | .SERVICE => (1.0, 1.0, 1.0)
  | .PROJECT_MANAGEMENT => (1.1, 1.2, 0.9)
  | .GENERAL_BUSINESS => (1.0, 1.0, 1.0)

/-- One axis of `apply_industry_correction`:
`min(10, round(value * factor))` (risk_engine.py lines 102–106). -/
def corrAxis (v : ℤ) (f : ℚ) : ℤ := min 10 (pyRound ((v : ℚ) * f))

/-- Function `OSDRiskEngine.apply_industry_correction`, risk_engine.py lines
82–108. -/
def apply_industry_correction (o s d : ℤ) (industry : IndustryCategory) :
    ℤ × ℤ × ℤ :=
  let c := INDUSTRY_CORRECTION industry
  (corrAxis o c.1, corrAxis s c.2.1, corrAxis d c.2.2)

/-- Function `OSDRiskEngine.get_risk_level`, risk_engine.py lines 38–56. -/
def get_risk_level (risk_score : ℤ) : String :=
  if risk_score < 100 then "낮음"
  else if risk_score < 300 then "중간"
  else if risk_score < 600 then "높음"
  else "매우높음"

/-- Function `OSDRiskEngine.get_risk_grade`, risk_engine.py lines 58–80. -/
def get_risk_grade (risk_score : ℤ) : String :=
  if risk_score < 50 then "A"
  else if risk_score < 100 then "B"
  else if risk_score < 200 then "C"
  else if risk_score < 400 then "D"
  else if risk_score < 700 then "E"
  else "F"

/-- The weight vector built in `calculate_overall_risk` (risk_engine.py
lines 131–132): `[0.4, 0.3, 0.2] + [0.1 / max(1, n - 3)] * (n - 3)`,
truncated to length `n` (Python list repetition clamps negative counts to
zero, matching ℕ subtraction). -/
def weightsFor (n : ℕ) : List ℚ :=
  (([0.4, 0.3, 0.2] : List ℚ) ++
    List.replicate (n - 3) ((0.1 : ℚ) / ((max 1 (n - 3) : ℕ) : ℚ))).take n

/-- The pre-scaling weighted aggregate `avg_score_osd` of
`calculate_overall_risk` (risk_engine.py lines 125–133): one observation
keeps its raw score, otherwise a weighted sum of the descending-sorted
scores. -/
def avg_score_osd (osd_scores : List OSDScore) : ℚ :=
  let ss := sortDesc id (osd_scores.map (fun r => r.risk_score))
  if ss.length = 1 then (ss.headI : ℚ)
  else
    (List.zipWith (fun (s : ℤ) (w : ℚ) => (s : ℚ) * w) ss
      (weightsFor ss.length)).sum

/-- Function `OSDRiskEngine.calculate_overall_risk`, risk_engine.py lines 111–143:
returns `(overall score on a 0–100 scale rounded to 2 decimals, level,
grade)`, level and grade computed from the int-truncated un-scaled
aggregate. -/
def calculate_overall_risk (osd_scores : List OSDScore) :
    ℚ × String × String :=
  if osd_scores = [] then (0, "낮음", "A")
  else
    let a := avg_score_osd osd_scores
    (pyRound2 (a / 1000 * 100), get_risk_level (pyInt a),
      get_risk_grade (pyInt a))

/-! ## Cost analysis engine (src/app/risk_engine.py, lines 146–331) -/

/-- Table `CostAnalysisEngine.INDUSTRY_COST_STRUCTURE`, risk_engine.py lines
150–208, as association lists in dict insertion order. -/
def INDUSTRY_COST_STRUCTURE : IndustryCategory → List (String × ℚ)
  | .IT_STARTUP =>
    [("개발비", 0.4), ("디자인비", 0.1), ("PM비용", 0.1), ("서버비", 0.1),
     ("마케팅비", 0.2), ("기타", 0.1)]
  | .EDUCATION =>
    [("콘텐츠_제작비", 0.3), ("강사비", 0.25), ("플랫폼_운영비", 0.15),
     ("마케팅비", 0.2), ("기타", 0.1)]
  | .MANUFACTURING =>
    [("설비비", 0.3), ("재료비", 0.25), ("인건비", 0.2), ("유지보수비", 0.15),
     ("기타", 0.1)]
  | .SERVICE =>
    [("임대료", 0.25), ("인건비", 0.3), ("원재료비", 0.2), ("마케팅비", 0.15),
     ("기타", 0.1)]
  | .MARKETING =>
    [("광고비", 0.4), ("크리에이티브_제작비", 0.2), ("인건비", 0.2),
     ("도구_라이선스", 0.1), ("기타", 0.1)]
  | .FINANCE =>
    [("시스템_구축비", 0.3), ("인건비", 0.25), ("규제_대응비", 0.2),
     ("보안비", 0.15), ("기타", 0.1)]
  | .PROJECT_MANAGEMENT =>
    [("인건비", 0.35), ("장비_임대료", 0.25), ("재료비", 0.2), ("관리비", 0.1),
     ("기타", 0.1)]
  | .GENERAL_BUSINESS =>
    [("인건비", 0.3), ("운영비", 0.25), ("마케팅비", 0.2), ("시스템비", 0.15),
     ("기타", 0.1)]

/-- Function `CostAnalysisEngine.estimate_cost_breakdown`, risk_engine.py lines
210–234 (the dict `.get` falls back to the general-business table; the
closed `IndustryCategory` type makes the lookup total here, with the same
fallback value recorded at the `GENERAL_BUSINESS` branch). -/
def estimate_cost_breakdown (investment_amount : ℤ)
    (industry : IndustryCategory) : List (String × ℚ) :=
  (INDUSTRY_COST_STRUCTURE industry).map
    (fun cr => (cr.1, (investment_amount : ℚ) * cr.2))

/-- Function `CostAnalysisEngine.calculate_risk_impact_cost`, risk_engine.py lines
236–270.  The `severity_impact` dict of `range` keys is iterated in
insertion order and the first containing range wins, with default `0.3`. -/
def calculate_risk_impact_cost (osd_score : OSDScore)
    (total_investment : ℤ) : ℚ :=
  let probability := min 1 ((osd_score.risk_score : ℚ) / 1000)
  let impact :=
    if 1 ≤ osd_score.severity ∧ osd_score.severity < 4 then (0.1 : ℚ)
    else if 4 ≤ osd_score.severity ∧ osd_score.severity < 7 then 0.3
    else if 7 ≤ osd_score.severity ∧ osd_score.severity < 11 then 0.6
    else 0.3
  probability * impact * (total_investment : ℚ)

/-- One entry of the `loss_by_risk` list built by
`calculate_total_expected_loss` (risk_engine.py lines 310–315). -/
structure LossEntry where
  risk_description : String
  osd_score : ℤ
  probability : ℚ
  expected_loss : ℚ
deriving DecidableEq, Repr

/-- Result dict of `CostAnalysisEngine.calculate_total_expected_loss`
(risk_engine.py lines 320–330), with the nested `cost_breakdown` dict
flattened into the `capex`/`opex`/`risk_impact_cost`/`details` fields. -/
structure LossAnalysis where
  total_expected_loss : ℚ
  capex : ℚ
  opex : ℚ
  risk_impact_cost : ℚ
  details : List (String × ℚ)
  loss_by_risk : List LossEntry
  probability_weighted_loss : ℚ
deriving DecidableEq, Repr

/-- Function `CostAnalysisEngine.calculate_total_expected_loss`, risk_engine.py
lines 272–330. -/
def calculate_total_expected_loss (osd_scores : List OSDScore)
    (investment_amount : ℤ) (industry : IndustryCategory) : LossAnalysis :=
  let cost_details := estimate_cost_breakdown investment_amount industry
  let capex := (investment_amount : ℚ) * 0.6
  let opex := (investment_amount : ℚ) * 0.4
  let total_risk_cost :=
    (osd_scores.map
      (fun osd => calculate_risk_impact_cost osd investment_amount)).sum
  let loss_by_risk : List LossEntry :=
    osd_scores.map (fun osd =>
      { risk_description := osd.description
        osd_score := osd.risk_score
        probability := min 1 ((osd.risk_score : ℚ) / 1000)
        expected_loss := calculate_risk_impact_cost osd investment_amount })
  let probability_weighted_loss :=
    (loss_by_risk.map (fun e => e.expected_loss)).sum
  { total_expected_loss := probability_weighted_loss
    capex := capex
    opex := opex
    risk_impact_cost := total_risk_cost
    details := cost_details
    loss_by_risk := loss_by_risk
    probability_weighted_loss := probability_weighted_loss }

/-! ## Report assembly slice (src/app/service.py, lines 208–243) -/

/-- Slice of `FinalRiskReport` (models.py lines 156–176) computed by the
risk/cost engines in `generate_final_report`; `cash_loss_analysis` is the
`Optional` field of the pydantic model. -/
structure FinalReportCore where
  overall_risk_score : ℚ
  overall_risk_level : String
  risk_grade : String
  cash_loss_analysis : Option LossAnalysis
deriving DecidableEq, Repr

/-- The engine part of `RiskAnalysisService.generate_final_report`,
service.py lines 208–243: the overall risk triple is computed, then
`calculate_total_expected_loss` is called unconditionally and its result is
always stored in `cash_loss_analysis`.  The session's
`investment_amount` is `Optional[int]`; when it is `None`, Python raises
`TypeError` inside `estimate_cost_breakdown` (`None * ratio`), modelled by
the `Except.error` branch. -/
def generate_final_report_core (all_osd_scores : List OSDScore)
    (investment_amount : Option ℤ) (industry : IndustryCategory) :
    Except String FinalReportCore :=
  let r := calculate_overall_risk all_osd_scores
  match investment_amount with
  | none =>
    Except.error "TypeError: unsupported operand type(s) for *: NoneType and float"
  | some inv =>
    Except.ok
      { overall_risk_score := r.1
        overall_risk_level := r.2.1
        risk_grade := r.2.2
        cash_loss_analysis :=
          some (calculate_total_expected_loss all_osd_scores inv industry) }

/-! ## Helper lemmas -/

theorem ratFloor_eq_floor (x : ℚ) : ratFloor x = ⌊x⌋ := by
  rw [Rat.floor_def]
  exact Int.fdiv_eq_ediv _ (Int.natCast_nonneg _)

theorem pyRound_intCast (n : ℤ) : pyRound ((n : ℤ) : ℚ) = n := by
  unfold pyRound
  rw [ratFloor_eq_floor, Int.floor_intCast]
  norm_num

theorem one_le_pyRound (x : ℚ) (h : 4/5 ≤ x) : 1 ≤ pyRound x := by
  unfold pyRound
  rw [ratFloor_eq_floor]
  have h0 : 0 ≤ ⌊x⌋ := Int.floor_nonneg.mpr (by linarith)
  have hle : (⌊x⌋ : ℚ) ≤ x := Int.floor_le x
  have key : 1 ≤ ⌊x⌋ ∨ (⌊x⌋ = 0 ∧ 1/2 < x - (⌊x⌋ : ℚ)) := by
    rcases eq_or_lt_of_le h0 with h' | h'
    · right
      refine ⟨h'.symm, ?_⟩
      rw [← h']
      push_cast
      linarith
    · left; omega
  split_ifs with h1 h2 <;>
    rcases key with hk | ⟨hk0, hkr⟩ <;>
    first
    | omega
    | (exfalso; rw [hk0] at h1; push_cast at h1 hkr; linarith)

theorem corrAxis_bounds (v : ℤ) (f : ℚ) (hv : 1 ≤ v) (hf : 4/5 ≤ f) :
    1 ≤ corrAxis v f ∧ corrAxis v f ≤ 10 := by
  have hf0 : (0 : ℚ) ≤ f := by linarith
  have hv' : (1 : ℚ) ≤ (v : ℚ) := by exact_mod_cast hv
  have hx : (4/5 : ℚ) ≤ (v : ℚ) * f := by
    calc (4/5 : ℚ) ≤ f := hf
    _ = 1 * f := (one_mul f).symm
    _ ≤ (v : ℚ) * f := mul_le_mul_of_nonneg_right hv' hf0
  exact ⟨le_min (by norm_num) (one_le_pyRound _ hx), min_le_left _ _⟩

theorem mem_insertDesc {α : Type} (key : α → ℤ) (x a : α) (l : List α) :
    a ∈ insertDesc key x l ↔ a = x ∨ a ∈ l := by
  induction l with
  | nil => simp [insertDesc]
  | cons y ys ih =>
    simp only [insertDesc]
    split_ifs with h
    · simp [List.mem_cons]
    · simp only [List.mem_cons, ih]
      tauto

theorem mem_sortDesc {α : Type} (key : α → ℤ) (a : α) (l : List α) :
    a ∈ sortDesc key l ↔ a ∈ l := by
  induction l with
  | nil => simp [sortDesc]
  | cons x xs ih =>
    show a ∈ insertDesc key x (sortDesc key xs) ↔ _
    rw [mem_insertDesc]
    simp [ih]

theorem length_insertDesc {α : Type} (key : α → ℤ) (x : α) (l : List α) :
    (insertDesc key x l).length = l.length + 1 := by
  induction l with
  | nil => simp [insertDesc]
  | cons y ys ih =>
    simp only [insertDesc]
    split_ifs with h
    · simp
    · simp [ih]

theorem length_sortDesc {α : Type} (key : α → ℤ) (l : List α) :
    (sortDesc key l).length = l.length := by
  induction l with
  | nil => simp [sortDesc]
  | cons x xs ih =>
    show (insertDesc key x (sortDesc key xs)).length = _
    rw [length_insertDesc, ih, List.length_cons]

/-! ## Claim theorems -/

/-- Claim C1: for the three observations with raw risk scores
[336, 315, 180], `calculate_overall_risk` returns
`overall_score = 26.49` (the weighted sum 264.9 divided by 1000, times
100, rounded to 2 decimals), and level and grade come from the
int-truncated un-scaled weighted sum 264, giving level "중간" (medium)
and grade "D". -/
theorem calculate_overall_risk_scenario_D :
    calculate_overall_risk
        [⟨7, 8, 6, 336, "r1"⟩, ⟨5, 9, 7, 315, "r2"⟩, ⟨5, 6, 6, 180, "r3"⟩] =
      ((26.49 : ℚ), "중간", "D") ∧
    avg_score_osd
        [⟨7, 8, 6, 336, "r1"⟩, ⟨5, 9, 7, 315, "r2"⟩, ⟨5, 6, 6, 180, "r3"⟩] =
      264.9 ∧
    pyInt (264.9 : ℚ) = 264 ∧
    get_risk_level 264 = "중간" ∧ get_risk_grade 264 = "D" := by
  have hs : sortDesc id (List.map (fun r => r.risk_score)
      ([⟨7, 8, 6, 336, "r1"⟩, ⟨5, 9, 7, 315, "r2"⟩, ⟨5, 6, 6, 180, "r3"⟩] :
        List OSDScore)) = [336, 315, 180] := by decide
  have havg : avg_score_osd
      [⟨7, 8, 6, 336, "r1"⟩, ⟨5, 9, 7, 315, "r2"⟩, ⟨5, 6, 6, 180, "r3"⟩] =
      264.9 := by
    simp only [avg_score_osd, hs]
    norm_num [weightsFor, List.zipWith, List.sum_cons, List.sum_nil]
  have hint : pyInt (264.9 : ℚ) = 264 := by
    unfold pyInt
    norm_num
    decide
  refine ⟨?_, havg, hint, by decide, by decide⟩
  simp only [calculate_overall_risk]
  rw [if_neg (List.cons_ne_nil _ _), havg, hint,
    show (264.9 : ℚ) / 1000 * 100 = 26.49 from by norm_num]
  have hr : pyRound2 (26.49 : ℚ) = 26.49 := by
    unfold pyRound2
    rw [show (26.49 : ℚ) * 100 = ((2649 : ℤ) : ℚ) from by norm_num,
      pyRound_intCast]
    norm_num
  rw [hr]
  simp only [Prod.mk.injEq]
  exact ⟨trivial, by decide, by decide⟩

/-- Claim C4 counterexample: for a single observation the code gives the
raw risk score full weight (risk_engine.py lines 127–128), not the claimed
`0.4 ×` weighting: at risk score 500 the pre-scaling aggregate is 500, not
200. -/
theorem single_observation_weight_cex :
    avg_score_osd [⟨5, 10, 10, 500, "단일"⟩] = 500 ∧
    avg_score_osd [⟨5, 10, 10, 500, "단일"⟩] ≠ (0.4 : ℚ) * 500 := by
  have h : avg_score_osd [⟨5, 10, 10, 500, "단일"⟩] = 500 := by
    simp only [avg_score_osd,
      show sortDesc id (List.map (fun r => r.risk_score)
        ([⟨5, 10, 10, 500, "단일"⟩] : List OSDScore)) = [500] from by decide]
    norm_num
  refine ⟨h, ?_⟩
  rw [h]
  norm_num

/-- Claim C4 (amended): for two or three observations the pre-scaling
aggregate is the descending-sorted scores dotted with the truncated weight
vector `[0.4, 0.3, 0.2][:n]`, whose weights sum to strictly less than 1;
for a single observation the aggregate is the observation's raw
`risk_score` itself (full weight, not `0.4 ×`). -/
theorem avg_score_weighted_small_n (obs : List OSDScore) (hne : obs ≠ [])
    (hlen : obs.length ≤ 3) (hpos : ∀ o ∈ obs, 0 < o.risk_score) :
    (2 ≤ obs.length →
      avg_score_osd obs =
        (List.zipWith (fun (s : ℤ) (w : ℚ) => (s : ℚ) * w)
          (sortDesc id (obs.map (fun r => r.risk_score)))
          (([0.4, 0.3, 0.2] : List ℚ).take obs.length)).sum ∧
      (([0.4, 0.3, 0.2] : List ℚ).take obs.length).sum < 1) ∧
    (obs.length = 1 → ∀ o ∈ obs, avg_score_osd obs = (o.risk_score : ℚ)) := by
  have hlength : (sortDesc id (obs.map (fun r => r.risk_score))).length =
      obs.length := by
    rw [length_sortDesc, List.length_map]
  constructor
  · intro h2
    have h23 : obs.length = 2 ∨ obs.length = 3 := by omega
    have hw : weightsFor obs.length =
        ([0.4, 0.3, 0.2] : List ℚ).take obs.length := by
      rcases h23 with h | h <;> rw [h] <;> simp [weightsFor]
    constructor
    · simp only [avg_score_osd]
      rw [if_neg (show ¬(sortDesc id
          (obs.map (fun r => r.risk_score))).length = 1 by
            rw [hlength]; omega)]
      rw [hlength, hw]
    · rcases h23 with h | h <;> rw [h] <;>
        norm_num [List.take, List.sum_cons, List.sum_nil]
  · intro h1 o ho
    rcases obs with _ | ⟨a, t⟩
    · exact absurd rfl hne
    · have ht : t = [] := by
        simp only [List.length_cons] at h1
        exact List.length_eq_zero.mp (by omega)
      subst ht
      have hoa : o = a := by simpa using ho
      subst hoa
      simp [avg_score_osd, sortDesc, insertDesc]

/-- Witness for the amended C4 theorem at a concrete two-observation
input. -/
theorem avg_score_weighted_small_n_witness :
    avg_score_osd [⟨7, 8, 6, 336, "w1"⟩, ⟨5, 9, 7, 315, "w2"⟩] =
      (List.zipWith (fun (s : ℤ) (w : ℚ) => (s : ℚ) * w)
        (sortDesc id
          (([⟨7, 8, 6, 336, "w1"⟩, ⟨5, 9, 7, 315, "w2"⟩] :
            List OSDScore).map (fun r => r.risk_score)))
        (([0.4, 0.3, 0.2] : List ℚ).take 2)).sum :=
  ((avg_score_weighted_small_n _ (by decide) (by decide)
    (by decide)).1 (by decide)).1

/-- Claim C6: for occurrence, severity, detection in [1,10] and any
industry category, each corrected axis value lies in [1,10]: the upper
clamp is the `min 10`, and the value never falls below 1 because every
correction factor is at least 0.8. -/
theorem apply_industry_correction_in_range (o s d : ℤ)
    (industry : IndustryCategory)
    (ho1 : 1 ≤ o) (ho2 : o ≤ 10) (hs1 : 1 ≤ s) (hs2 : s ≤ 10)
    (hd1 : 1 ≤ d) (hd2 : d ≤ 10) :
    (1 ≤ (apply_industry_correction o s d industry).1 ∧
      (apply_industry_correction o s d industry).1 ≤ 10) ∧
    (1 ≤ (apply_industry_correction o s d industry).2.1 ∧
      (apply_industry_correction o s d industry).2.1 ≤ 10) ∧
    (1 ≤ (apply_industry_correction o s d industry).2.2 ∧
      (apply_industry_correction o s d industry).2.2 ≤ 10) := by
  have hf : 4/5 ≤ (INDUSTRY_CORRECTION industry).1 ∧
      4/5 ≤ (INDUSTRY_CORRECTION industry).2.1 ∧
      4/5 ≤ (INDUSTRY_CORRECTION industry).2.2 := by
    cases industry <;> norm_num [INDUSTRY_CORRECTION]
  exact ⟨corrAxis_bounds o _ ho1 hf.1, corrAxis_bounds s _ hs1 hf.2.1,
    corrAxis_bounds d _ hd1 hf.2.2⟩

/-- Witness for C6 at the concrete input (7, 8, 6) with the finance
category. -/
theorem apply_industry_correction_in_range_witness :
    (1 ≤ (apply_industry_correction 7 8 6 IndustryCategory.FINANCE).1 ∧
      (apply_industry_correction 7 8 6 IndustryCategory.FINANCE).1 ≤ 10) ∧
    (1 ≤ (apply_industry_correction 7 8 6 IndustryCategory.FINANCE).2.1 ∧
      (apply_industry_correction 7 8 6 IndustryCategory.FINANCE).2.1 ≤ 10) ∧
    (1 ≤ (apply_industry_correction 7 8 6 IndustryCategory.FINANCE).2.2 ∧
      (apply_industry_correction 7 8 6 IndustryCategory.FINANCE).2.2 ≤ 10) :=
  apply_industry_correction_in_range 7 8 6 IndustryCategory.FINANCE
    (by decide) (by decide) (by decide) (by decide) (by decide) (by decide)

/-- Claim C7: for an observation within the documented ranges and any
investment, `calculate_risk_impact_cost` returns
`min(1, risk_score/1000) × impact_ratio × investment` with the
severity-bucketed impact ratio 0.1 / 0.3 / 0.6 (default 0.3). -/
theorem calculate_risk_impact_cost_spec (osd : OSDScore) (inv : ℤ)
    (ho1 : 1 ≤ osd.occurrence) (ho2 : osd.occurrence ≤ 10)
    (hs1 : 1 ≤ osd.severity) (hs2 : osd.severity ≤ 10)
    (hd1 : 1 ≤ osd.detection) (hd2 : osd.detection ≤ 10)
    (hr1 : 1 ≤ osd.risk_score) (hr2 : osd.risk_score ≤ 1000) :
    calculate_risk_impact_cost osd inv =
      min 1 ((osd.risk_score : ℚ) / 1000) *
        (if 1 ≤ osd.severity ∧ osd.severity ≤ 3 then (0.1 : ℚ)
         else if 4 ≤ osd.severity ∧ osd.severity ≤ 6 then 0.3
         else if 7 ≤ osd.severity ∧ osd.severity ≤ 10 then 0.6
         else 0.3) * (inv : ℚ) := by
  simp only [calculate_risk_impact_cost]
  have hiff :
      (if 1 ≤ osd.severity ∧ osd.severity < 4 then (0.1 : ℚ)
       else if 4 ≤ osd.severity ∧ osd.severity < 7 then 0.3
       else if 7 ≤ osd.severity ∧ osd.severity < 11 then 0.6
       else 0.3) =
      (if 1 ≤ osd.severity ∧ osd.severity ≤ 3 then (0.1 : ℚ)
       else if 4 ≤ osd.severity ∧ osd.severity ≤ 6 then 0.3
       else if 7 ≤ osd.severity ∧ osd.severity ≤ 10 then 0.6
       else 0.3) := by
    split_ifs <;> first | rfl | omega
  rw [hiff]

/-- Witness for C7: scenario E, investment 100,000,000 and observation
(O=7, S=8, D=6, risk_score=336) give exactly 20,160,000. -/
theorem calculate_risk_impact_cost_spec_witness :
    calculate_risk_impact_cost ⟨7, 8, 6, 336, "핵심 리스크"⟩ 100000000 =
      20160000 := by
  rw [calculate_risk_impact_cost_spec ⟨7, 8, 6, 336, "핵심 리스크"⟩ 100000000
    (by decide) (by decide) (by decide) (by decide) (by decide) (by decide)
    (by decide) (by decide)]
  rw [show min 1 (((336 : ℤ) : ℚ) / 1000) = 336/1000 from
    min_eq_right (by norm_num)]
  norm_num

/-- Claim C8: for every investment amount and industry category, the
per-category cost details sum to the investment amount (each ratio table
sums to 1), and capex + opex equals the investment under the fixed 0.6/0.4
split. -/
theorem cost_breakdown_sums (inv : ℤ) (industry : IndustryCategory) :
    ((estimate_cost_breakdown inv industry).map (fun cr => cr.2)).sum =
      (inv : ℚ) ∧
    ∀ osd_scores : List OSDScore,
      (calculate_total_expected_loss osd_scores inv industry).capex +
        (calculate_total_expected_loss osd_scores inv industry).opex =
        (inv : ℚ) := by
  constructor
  · cases industry <;>
      simp [estimate_cost_breakdown, INDUSTRY_COST_STRUCTURE] <;> ring_nf
  · intro osd_scores
    simp only [calculate_total_expected_loss]
    ring_nf

/-- Claim C9: `probability_weighted_loss` is the plain sum of the
per-observation risk impact costs, and it is not capped at the investment:
two full-probability high-severity risks over a 1,000,000 investment yield
1,200,000. -/
theorem probability_weighted_loss_uncapped :
    (∀ (osd_scores : List OSDScore) (inv : ℤ)
        (industry : IndustryCategory),
      (calculate_total_expected_loss osd_scores inv
          industry).probability_weighted_loss =
        (osd_scores.map
          (fun osd => calculate_risk_impact_cost osd inv)).sum) ∧
    (1000000 : ℚ) <
      (calculate_total_expected_loss
        [⟨10, 10, 10, 1000, "위험1"⟩, ⟨10, 10, 10, 1000, "위험2"⟩]
        1000000 IndustryCategory.GENERAL_BUSINESS).probability_weighted_loss
      := by
  constructor
  · intro osd_scores inv industry
    simp [calculate_total_expected_loss, List.map_map, Function.comp_def]
  · simp only [calculate_total_expected_loss, calculate_risk_impact_cost,
      List.map_cons, List.map_nil, List.sum_cons, List.sum_nil]
    norm_num [min_def]

/-- Claim C5 (code behavior at the divergence): the engine slice of
`generate_final_report` always attaches a cash-loss analysis when an
investment amount is present, and raises (modelled as `Except.error`) when
the session has no investment amount — it never produces a report with
`cash_loss_analysis` absent. -/
theorem generate_final_report_cash_loss_behavior :
    (∀ (all_osd_scores : List OSDScore) (inv : ℤ)
        (industry : IndustryCategory),
      ∃ r : FinalReportCore,
        generate_final_report_core all_osd_scores (some inv) industry =
            Except.ok r ∧
          r.cash_loss_analysis.isSome = true) ∧
    ∃ e : String,
      generate_final_report_core [⟨7, 8, 6, 336, "일정 지연"⟩] none
        IndustryCategory.GENERAL_BUSINESS = Except.error e :=
  ⟨fun all_osd_scores inv industry => ⟨_, rfl, rfl⟩, ⟨_, rfl⟩⟩

/-- Checking `select_analysis_methods` on a single category returns two distinct
methods, checked over all eight category ids. -/
theorem selectOne_two_distinct :
    ∀ i : IndustryCategory,
      (selectOne i).length = 2 ∧ (selectOne i).Nodup := by decide

/-- Checking `select_analysis_methods` on two categories returns two distinct
methods, checked over all 64 pairs of category ids. -/
theorem selectPair_two_distinct :
    ∀ i j : IndustryCategory,
      (selectPair i j).length = 2 ∧ (selectPair i j).Nodup := by decide

/-- Claim C2: for every input list of categories, including the empty
list, `select_analysis_methods` returns exactly 2 analysis methods, and
the two are distinct. -/
theorem select_analysis_methods_two_distinct
    (categories : List IndustryCategoryInfo) :
    (select_analysis_methods categories).length = 2 ∧
      (select_analysis_methods categories).Nodup := by
  rcases categories with _ | ⟨a, _ | ⟨b, t⟩⟩
  · exact ⟨rfl, by decide⟩
  · have h : select_analysis_methods [a] = selectOne a.category_id := rfl
    rw [h]
    exact selectOne_two_distinct a.category_id
  · have h : select_analysis_methods (a :: b :: t) =
        selectPair a.category_id b.category_id := rfl
    rw [h]
    exact selectPair_two_distinct a.category_id b.category_id

/-- The general-business category has no keyword entry, so its match count
is always zero. -/
theorem matchCount_general (d : String) :
    matchCount d IndustryCategory.GENERAL_BUSINESS = 0 := rfl

/-- Claim C3: every category info returned by `classify_business` has
confidence in [0, 95]; a category with at least one matched keyword gets
confidence `min(matched_count × 15, 95)`; and when no keyword of any
category matches, the result is exactly the general-business fallback with
confidence 50. -/
theorem classify_business_confidence (d : String) :
    (∀ info ∈ classify_business d,
        0 ≤ info.confidence_score ∧ info.confidence_score ≤ 95 ∧
        (0 < matchCount d info.category_id →
          info.confidence_score =
            ((min (matchCount d info.category_id * 15) 95 : ℕ) : ℚ))) ∧
    ((∀ c : IndustryCategory, matchCount d c = 0) →
      classify_business d =
        [⟨IndustryCategory.GENERAL_BUSINESS,
          INDUSTRY_NAMES IndustryCategory.GENERAL_BUSINESS, 50⟩]) := by
  constructor
  · intro info hinfo
    simp only [classify_business, List.mem_map] at hinfo
    obtain ⟨p, hp, rfl⟩ := hinfo
    have hp2 := List.mem_of_mem_take hp
    rw [mem_sortDesc] at hp2
    by_cases hE : classifyScores d = []
    · rw [if_pos hE] at hp2
      simp only [List.mem_singleton] at hp2
      subst hp2
      refine ⟨by norm_num, by norm_num, fun hpos => ?_⟩
      rw [matchCount_general] at hpos
      exact absurd hpos (by norm_num)
    · rw [if_neg hE] at hp2
      simp only [classifyScores, List.mem_filterMap] at hp2
      obtain ⟨c, _hc, hsome⟩ := hp2
      by_cases hm : 0 < matchCount d c
      · rw [if_pos hm] at hsome
        have hps := Option.some.inj hsome
        subst hps
        refine ⟨Nat.cast_nonneg _, ?_, fun _ => rfl⟩
        show ((min (matchCount d c * 15) 95 : ℕ) : ℚ) ≤ 95
        exact_mod_cast min_le_right (matchCount d c * 15) 95
      · rw [if_neg hm] at hsome
        simp at hsome
  · intro hall
    have hE : classifyScores d = [] := by
      simp [classifyScores, keyword_categories, hall]
    simp [classify_business, hE, sortDesc, insertDesc]

/-- Witness for C3 at a description matching no keyword. -/
theorem classify_business_confidence_witness :
    classify_business "qqq" =
      [⟨IndustryCategory.GENERAL_BUSINESS,
        INDUSTRY_NAMES IndustryCategory.GENERAL_BUSINESS, 50⟩] :=
  (classify_business_confidence "qqq").2 (by decide)

/-- Claim C10: the general-business category appears in the output of
`classify_business` only as the single fallback element with confidence
exactly 50 — whenever it is present, the whole result is that singleton. -/
theorem general_business_only_fallback (d : String)
    (h : ∃ info ∈ classify_business d,
        info.category_id = IndustryCategory.GENERAL_BUSINESS) :
    classify_business d =
      [⟨IndustryCategory.GENERAL_BUSINESS,
        INDUSTRY_NAMES IndustryCategory.GENERAL_BUSINESS, 50⟩] ∧
    ∀ info ∈ classify_business d, info.confidence_score = 50 := by
  obtain ⟨info, hinfo, hcat⟩ := h
  by_cases hE : classifyScores d = []
  · have hres : classify_business d =
        [⟨IndustryCategory.GENERAL_BUSINESS,
          INDUSTRY_NAMES IndustryCategory.GENERAL_BUSINESS, 50⟩] := by
      simp [classify_business, hE, sortDesc, insertDesc]
    refine ⟨hres, fun j hj => ?_⟩
    rw [hres] at hj
    simp only [List.mem_singleton] at hj
    subst hj
    rfl
  · exfalso
    simp only [classify_business, List.mem_map] at hinfo
    obtain ⟨p, hp, rfl⟩ := hinfo
    have hp2 := List.mem_of_mem_take hp
    rw [mem_sortDesc] at hp2
    rw [if_neg hE] at hp2
    simp only [classifyScores, List.mem_filterMap] at hp2
    obtain ⟨c, hc, hsome⟩ := hp2
    by_cases hm : 0 < matchCount d c
    · rw [if_pos hm] at hsome
      have hps := Option.some.inj hsome
      subst hps
      have hcG : c = IndustryCategory.GENERAL_BUSINESS := hcat
      subst hcG
      exact absurd hc (by decide)
    · rw [if_neg hm] at hsome
      simp at hsome

/-- Witness for C10 at a description matching no keyword, where the
general-business fallback is indeed present. -/
theorem general_business_only_fallback_witness :
    classify_business "zzz" =
      [⟨IndustryCategory.GENERAL_BUSINESS,
        INDUSTRY_NAMES IndustryCategory.GENERAL_BUSINESS, 50⟩] ∧
    ∀ info ∈ classify_business "zzz", info.confidence_score = 50 :=
  general_business_only_fallback "zzz"
    ⟨⟨IndustryCategory.GENERAL_BUSINESS,
      INDUSTRY_NAMES IndustryCategory.GENERAL_BUSINESS, 50⟩, by decide, rfl⟩

end RiskApi
